import Mathlib

/-!
Verification of the `ChConn` component in `api/utils/sshutils/chconn.go`
(a `net.Conn` adapter over an SSH channel).

Shallow embedding notes.  The external collaborators (the SSH channel, the
parent SSH connection, and the two ends of the in-process `net.Pipe`) are not
part of this repository; only the results they return to `ChConn`'s calls
matter here.  They are modelled by an environment `Env` that supplies, for
each primitive operation, the result of its n-th invocation, and each
`ChConn` method is embedded as a pure function returning its result, the
updated `ChConn` state, and the list of external calls it performed (in
order).  The background `io.Copy` goroutine and the byte flow through the
pipe are modelled separately as a small transition system (`StreamStep`).
The `sync.Mutex` in `Close` only serializes concurrent `Close` calls; the
sequential semantics embedded here is the body of the critical section.
-/

/-- Errors returned by the external collaborators (Go `error` values);
`Option Err` plays the role of a nilable `error`. -/
abbrev Err := String

/-- Time values passed to the deadline setters (`time.Time`). -/
abbrev Time := Int

/-- `trace.Aggregate`: a first-class list of underlying errors. -/
structure AggregateErr where
  errors : List Err
deriving Repr, DecidableEq

/-- `trace.NewAggregate(errs...)` applied to a list of non-nil errors:
returns nil (`none`) when the list is empty, otherwise the aggregate of all
of them. -/
def NewAggregate (errs : List Err) : Option AggregateErr :=
  if errs.isEmpty then none else some ⟨errs⟩

/-- One end of the in-process pipe created by `net.Pipe()` in `newChConn`.
`closeCount` counts how many times `Close` was called on this end (the end
is closed once the count is positive); the deadline fields are the state
installed by `SetDeadline` / `SetReadDeadline`. -/
structure PipeEnd where
  closeCount : Nat
  readDeadline : Option Time
  writeDeadline : Option Time
deriving Repr, DecidableEq

/-- `io.ErrClosedPipe`, the error `net.Pipe` deadline setters return on a
closed end. -/
def errClosedPipe : Err := "io: read/write on closed pipe"

/-- `net.Pipe`'s `SetDeadline` on one end (external leaf dependency):
installs `t` as both the read and the write deadline of the end and returns
nil, unless the end is closed, in which case it returns `io.ErrClosedPipe`
and changes nothing. -/
def PipeEnd.SetDeadline (p : PipeEnd) (t : Time) : Option Err × PipeEnd :=
  if p.closeCount = 0 then
    (none, { p with readDeadline := some t, writeDeadline := some t })
  else
    (some errClosedPipe, p)

/-- `net.Pipe`'s `SetReadDeadline` on one end: installs `t` as the read
deadline only. -/
def PipeEnd.SetReadDeadline (p : PipeEnd) (t : Time) : Option Err × PipeEnd :=
  if p.closeCount = 0 then
    (none, { p with readDeadline := some t })
  else
    (some errClosedPipe, p)

/-- External calls a `ChConn` method can perform, in the order performed.
`sendRequest` is the channel's out-of-band request mechanism (`SendRequest`);
it is listed so that theorems can state that no `ChConn` operation ever uses
it. -/
inductive ExtCall where
  | channelClose : ExtCall
  | readerClose : ExtCall
  | writerClose : ExtCall
  | connClose : ExtCall
  | channelWrite (data : List Nat) : ExtCall
  | readerRead (n : Nat) : ExtCall
  | readerSetDeadline (t : Time) : ExtCall
  | readerSetReadDeadline (t : Time) : ExtCall
  | connLocalAddr : ExtCall
  | connRemoteAddr : ExtCall
  | sendRequest (name : String) : ExtCall
deriving Repr, DecidableEq

/-- Behaviour of the external collaborators: for each fallible primitive,
the result of its n-th invocation (counted per object, starting at 0), and
the results of the channel's `Write`, the pipe read end's `Read`, and the
parent connection's address accessors. -/
structure Env where
  channelClose : Nat → Option Err
  readerClose : Nat → Option Err
  writerClose : Nat → Option Err
  connClose : Nat → Option Err
  channelWrite : List Nat → Nat × Option Err
  readerRead : Nat → Nat × Option Err
  localAddr : String
  remoteAddr : String

/-- The `ChConn` struct.  `exclusive` is the construction-time flag; the
close counters record how many times `Close` has been called on the embedded
channel and on the parent connection; `reader` and `writer` are the two ends
of the internal pipe (`reader` is the caller-facing end, `writer` the end fed
by the copy goroutine). -/
structure ChConn where
  exclusive : Bool
  channelCloseCount : Nat
  connCloseCount : Nat
  reader : PipeEnd
  writer : PipeEnd
deriving Repr, DecidableEq

/-- `newChConn(conn, ch, exclusive)`: allocates a fresh pipe (both ends open,
no deadlines) and records the `exclusive` flag.  The construction also
launches the `io.Copy` goroutine draining the channel into `writer`; that
data flow is modelled by `StreamStep` below. -/
def newChConn (exclusive : Bool) : ChConn :=
  { exclusive := exclusive
    channelCloseCount := 0
    connCloseCount := 0
    reader := { closeCount := 0, readDeadline := none, writeDeadline := none }
    writer := { closeCount := 0, readDeadline := none, writeDeadline := none } }

/-- `NewChConn(conn, ch)`: shared-mode constructor. -/
def NewChConn : ChConn := newChConn false

/-- `NewExclusiveChConn(conn, ch)`: exclusive-mode constructor. -/
def NewExclusiveChConn : ChConn := newChConn true

/-- `errors = append(errors, err)` guarded by `if err != nil`. -/
def appendIfErr (errors : List Err) (e : Option Err) : List Err :=
  match e with
  | some e => errors ++ [e]
  | none => errors

/-- Result of `ChConn.Close`: the returned error, the updated state, and the
external close calls performed, in order. -/
structure CloseResult where
  err : Option AggregateErr
  conn : ChConn
  calls : List ExtCall
deriving Repr

/-- `ChConn.Close`, the body of the critical section:
closes the channel, the pipe's read end and the pipe's write end in turn,
appending each non-nil error; if not exclusive, returns the aggregate of
those; if exclusive, additionally closes the parent connection, appends its
error, and returns the aggregate of all four. -/
def ChConn.Close (c : ChConn) (env : Env) : CloseResult :=
  let errors : List Err := []
  let chErr := env.channelClose c.channelCloseCount
  let errors := appendIfErr errors chErr
  let rdErr := env.readerClose c.reader.closeCount
  let errors := appendIfErr errors rdErr
  let wrErr := env.writerClose c.writer.closeCount
  let errors := appendIfErr errors wrErr
  let c1 : ChConn :=
    { c with
      channelCloseCount := c.channelCloseCount + 1
      reader := { c.reader with closeCount := c.reader.closeCount + 1 }
      writer := { c.writer with closeCount := c.writer.closeCount + 1 } }
  if !c.exclusive then
    { err := NewAggregate errors
      conn := c1
      calls := [ExtCall.channelClose, ExtCall.readerClose, ExtCall.writerClose] }
  else
    let cnErr := env.connClose c.connCloseCount
    let errors := appendIfErr errors cnErr
    { err := NewAggregate errors
      conn := { c1 with connCloseCount := c.connCloseCount + 1 }
      calls := [ExtCall.channelClose, ExtCall.readerClose, ExtCall.writerClose,
                ExtCall.connClose] }

/-- The results the individual close calls of one `ChConn.Close` invocation
would receive from the environment, in call order (the parent-connection
entry present exactly in exclusive mode). -/
def ChConn.closeBehaviors (c : ChConn) (env : Env) : List (Option Err) :=
  [env.channelClose c.channelCloseCount,
   env.readerClose c.reader.closeCount,
   env.writerClose c.writer.closeCount] ++
  (if c.exclusive then [env.connClose c.connCloseCount] else [])

/-- `ChConn.Write` (promoted from the embedded `ssh.Channel`): writes the
buffer directly to the channel and returns the channel's `(n, err)` result
unchanged; the `ChConn` state is untouched and no pipe end is involved. -/
def ChConn.Write (c : ChConn) (env : Env) (data : List Nat) :
    (Nat × Option Err) × ChConn × List ExtCall :=
  (env.channelWrite data, c, [ExtCall.channelWrite data])

/-- `ChConn.Read`: `return c.reader.Read(data)` — delegates to the pipe's
read end (`n` is the caller's buffer size); the `ChConn` state recorded here
is untouched. -/
def ChConn.Read (c : ChConn) (env : Env) (n : Nat) :
    (Nat × Option Err) × ChConn × List ExtCall :=
  (env.readerRead n, c, [ExtCall.readerRead n])

/-- `ChConn.SetDeadline`: `return c.reader.SetDeadline(t)`. -/
def ChConn.SetDeadline (c : ChConn) (t : Time) :
    Option Err × ChConn × List ExtCall :=
  let r := c.reader.SetDeadline t
  (r.1, { c with reader := r.2 }, [ExtCall.readerSetDeadline t])

/-- `ChConn.SetReadDeadline`: `return c.reader.SetReadDeadline(t)`. -/
def ChConn.SetReadDeadline (c : ChConn) (t : Time) :
    Option Err × ChConn × List ExtCall :=
  let r := c.reader.SetReadDeadline t
  (r.1, { c with reader := r.2 }, [ExtCall.readerSetReadDeadline t])

/-- `ChConn.SetWriteDeadline`: `return nil` — no call, no state change. -/
def ChConn.SetWriteDeadline (c : ChConn) (t : Time) :
    Option Err × ChConn × List ExtCall :=
  (none, c, [])

/-- `ChConn.LocalAddr`: `return c.conn.LocalAddr()`. -/
def ChConn.LocalAddr (c : ChConn) (env : Env) : String × List ExtCall :=
  (env.localAddr, [ExtCall.connLocalAddr])

/-- `ChConn.RemoteAddr`: `return c.conn.RemoteAddr()`. -/
def ChConn.RemoteAddr (c : ChConn) (env : Env) : String × List ExtCall :=
  (env.remoteAddr, [ExtCall.connRemoteAddr])

/-- `ConnectionTypeRequest`, the protocol-level request-name constant. -/
def ConnectionTypeRequest : String := "x-teleport-connection-type"

/-!
The data path: the remote peer writes bytes into the SSH channel, the
`go io.Copy(writer, ch)` goroutine drains the channel into the pipe's write
end, and callers drain the pipe's read end through `ChConn.Read`.  This is a
single-producer single-consumer FIFO chain, modelled as a transition system
whose interleavings cover every schedule of the goroutine against the
caller. -/

/-- Joint state of the byte flow: all bytes the remote peer has written so
far, the bytes still buffered in the channel (not yet taken by `io.Copy`),
the bytes buffered in the pipe (written by `io.Copy`, not yet read), and the
concatenation of everything `ChConn.Read` has returned so far. -/
structure StreamState where
  written : List Nat
  chanBuf : List Nat
  pipeBuf : List Nat
  delivered : List Nat
deriving Repr, DecidableEq

/-- One step of the system: the peer appends bytes to the channel, the copy
goroutine moves a chunk (of any size) from the channel to the pipe in FIFO
order, or a `Read` with a buffer of any size removes a chunk from the front
of the pipe and hands it to the caller. -/
inductive StreamStep : StreamState → StreamState → Prop where
  | peerWrite (s : StreamState) (bs : List Nat) :
      StreamStep s ⟨s.written ++ bs, s.chanBuf ++ bs, s.pipeBuf, s.delivered⟩
  | copy (s : StreamState) (k : Nat) :
      StreamStep s ⟨s.written, s.chanBuf.drop k, s.pipeBuf ++ s.chanBuf.take k,
        s.delivered⟩
  | read (s : StreamState) (k : Nat) :
      StreamStep s ⟨s.written, s.chanBuf, s.pipeBuf.drop k,
        s.delivered ++ s.pipeBuf.take k⟩

/-- The state at construction time: nothing written, buffered or read. -/
def streamInit : StreamState := ⟨[], [], [], []⟩

/-- States the system can reach from construction. -/
def StreamReachable (s : StreamState) : Prop :=
  Relation.ReflTransGen StreamStep streamInit s

/-- The FIFO-chain invariant: what was read, plus what is still in the pipe,
plus what is still in the channel, is exactly what the peer wrote. -/
def streamInv (s : StreamState) : Prop :=
  s.delivered ++ s.pipeBuf ++ s.chanBuf = s.written

/-- An environment in which every close call of every collaborator fails
(first and repeated calls alike). -/
def envAllFail : Env :=
  { channelClose := fun _ => some "channel close failed"
    readerClose := fun _ => some "reader close failed"
    writerClose := fun _ => some "writer close failed"
    connClose := fun _ => some "conn close failed"
    channelWrite := fun data => (data.length, none)
    readerRead := fun _ => (0, none)
    localAddr := "local"
    remoteAddr := "remote" }

/-- An environment in which every close call succeeds, including redundant
ones — the behaviour of `net.Pipe`, whose `Close` is unconditionally nil,
and of a channel whose repeated `Close` is tolerated silently. -/
def envAllNil : Env :=
  { channelClose := fun _ => none
    readerClose := fun _ => none
    writerClose := fun _ => none
    connClose := fun _ => none
    channelWrite := fun data => (data.length, none)
    readerRead := fun _ => (0, none)
    localAddr := "local"
    remoteAddr := "remote" }

/-- The bytes of `"ping"`. -/
def pingBytes : List Nat := [112, 105, 110, 103]

/-- The stream state after: peer writes `"ping"`, the copy goroutine moves
all four bytes into the pipe, and one `Read` with a buffer of size 10 drains
it. -/
def pingFinal : StreamState := ⟨pingBytes, [], [], pingBytes⟩

lemma streamStep_inv {s s' : StreamState} (h : StreamStep s s')
    (hs : streamInv s) : streamInv s' := by
  cases h with
  | peerWrite bs =>
      show s.delivered ++ s.pipeBuf ++ (s.chanBuf ++ bs) = s.written ++ bs
      rw [← hs]
      simp [List.append_assoc]
  | copy k =>
      show s.delivered ++ (s.pipeBuf ++ s.chanBuf.take k) ++ s.chanBuf.drop k
          = s.written
      calc s.delivered ++ (s.pipeBuf ++ s.chanBuf.take k) ++ s.chanBuf.drop k
          = s.delivered ++ s.pipeBuf ++ (s.chanBuf.take k ++ s.chanBuf.drop k) := by
            simp [List.append_assoc]
        _ = s.delivered ++ s.pipeBuf ++ s.chanBuf := by
            rw [List.take_append_drop]
        _ = s.written := hs
  | read k =>
      show s.delivered ++ s.pipeBuf.take k ++ s.pipeBuf.drop k ++ s.chanBuf
          = s.written
      calc s.delivered ++ s.pipeBuf.take k ++ s.pipeBuf.drop k ++ s.chanBuf
          = s.delivered ++ (s.pipeBuf.take k ++ s.pipeBuf.drop k) ++ s.chanBuf := by
            simp [List.append_assoc]
        _ = s.delivered ++ s.pipeBuf ++ s.chanBuf := by
            rw [List.take_append_drop]
        _ = s.written := hs

lemma streamReachable_inv {s : StreamState} (h : StreamReachable s) :
    streamInv s := by
  induction h with
  | refl => rfl
  | tail _ hstep ih => exact streamStep_inv hstep ih

/-- Shared helper: the error `Close` returns is the aggregate of exactly the
non-nil results the individual close calls received, in call order. -/
lemma ChConn.close_err_eq (c : ChConn) (env : Env) :
    (c.Close env).err = NewAggregate ((c.closeBehaviors env).filterMap id) := by
  cases hx : c.exclusive <;>
    cases hch : env.channelClose c.channelCloseCount <;>
      cases hrd : env.readerClose c.reader.closeCount <;>
        cases hwr : env.writerClose c.writer.closeCount <;>
          cases hcn : env.connClose c.connCloseCount <;>
            simp [ChConn.Close, ChConn.closeBehaviors, appendIfErr, hx, hch, hrd,
              hwr, hcn]

/-- Shared helper: `Close` returns nil exactly when every individual close
call it made received nil. -/
lemma ChConn.close_err_none_iff (c : ChConn) (env : Env) :
    (c.Close env).err = none ↔ ∀ e ∈ c.closeBehaviors env, e = none := by
  rw [ChConn.close_err_eq]
  unfold NewAggregate
  constructor
  · intro h
    have hnil : (c.closeBehaviors env).filterMap id = [] := by
      by_contra hne
      rw [if_neg (fun hh => hne (List.isEmpty_iff.mp hh))] at h
      exact Option.some_ne_none _ h
    intro e he
    exact List.filterMap_eq_nil_iff.mp hnil e he
  · intro h
    have hnil : (c.closeBehaviors env).filterMap id = [] :=
      List.filterMap_eq_nil_iff.mpr (fun a ha => h a ha)
    simp [hnil]

/-- Shared helper: any error reported by an individual close call lands in
the aggregate `Close` returns. -/
lemma ChConn.mem_close_err (c : ChConn) (env : Env) (e : Err)
    (h : some e ∈ c.closeBehaviors env) :
    ∃ a, (c.Close env).err = some a ∧ e ∈ a.errors := by
  have hmem : e ∈ (c.closeBehaviors env).filterMap id :=
    List.mem_filterMap.mpr ⟨some e, h, rfl⟩
  rw [ChConn.close_err_eq]
  have hne : ((c.closeBehaviors env).filterMap id).isEmpty = false := by
    cases hl : (c.closeBehaviors env).filterMap id with
    | nil => rw [hl] at hmem; simp at hmem
    | cons a l => rfl
  refine ⟨⟨(c.closeBehaviors env).filterMap id⟩, ?_, hmem⟩
  unfold NewAggregate
  simp [hne]

/-- **C1**: for every `ChConn` constructed in exclusive mode, `Close` attempts
the parent-connection close whatever the channel and pipe closes returned
(the statement holds for every environment, in particular those where all
three earlier closes fail), merges the parent-close result into the same
aggregate, and the returned error is the aggregate of exactly the errors the
individual closes reported. -/
theorem close_exclusive_always_closes_parent (c : ChConn) (env : Env)
    (h : c.exclusive = true) :
    ExtCall.connClose ∈ (c.Close env).calls ∧
    (c.Close env).err = NewAggregate ((c.closeBehaviors env).filterMap id) ∧
    ∀ e, env.connClose c.connCloseCount = some e →
      ∃ a, (c.Close env).err = some a ∧ e ∈ a.errors := by
  refine ⟨?_, ChConn.close_err_eq c env, ?_⟩
  · simp [ChConn.Close, h]
  · intro e he
    apply ChConn.mem_close_err
    simp [ChConn.closeBehaviors, h, he]

/-- Witness for **C1**: the exclusive constructor with an environment in
which all four closes fail. -/
theorem close_exclusive_always_closes_parent_witness :
    NewExclusiveChConn.exclusive = true ∧
    (ExtCall.connClose ∈ (NewExclusiveChConn.Close envAllFail).calls ∧
     (NewExclusiveChConn.Close envAllFail).err =
       NewAggregate ((NewExclusiveChConn.closeBehaviors envAllFail).filterMap id) ∧
     ∀ e, envAllFail.connClose NewExclusiveChConn.connCloseCount = some e →
       ∃ a, (NewExclusiveChConn.Close envAllFail).err = some a ∧ e ∈ a.errors) :=
  ⟨rfl, close_exclusive_always_closes_parent NewExclusiveChConn envAllFail rfl⟩

/-- **C2**: for every `ChConn` constructed in non-exclusive mode, `Close`
never calls the parent connection's `Close`: the call trace contains no
parent-close call and the parent's close counter is untouched. -/
theorem close_shared_never_closes_parent (c : ChConn) (env : Env)
    (h : c.exclusive = false) :
    ExtCall.connClose ∉ (c.Close env).calls ∧
    (c.Close env).conn.connCloseCount = c.connCloseCount := by
  constructor <;> simp [ChConn.Close, h]

/-- Witness for **C2**: the shared constructor with an environment in which
every close fails (the parent is still not closed). -/
theorem close_shared_never_closes_parent_witness :
    NewChConn.exclusive = false ∧
    (ExtCall.connClose ∉ (NewChConn.Close envAllFail).calls ∧
     (NewChConn.Close envAllFail).conn.connCloseCount =
       NewChConn.connCloseCount) :=
  ⟨rfl, close_shared_never_closes_parent NewChConn envAllFail rfl⟩

/-- **C3**: for every `ChConn` and every environment — in particular when
every individual close fails — `Close` attempts the channel close, the pipe
read-end close and the pipe write-end close; the returned error is the
aggregate of exactly the non-nil results those calls reported, and it is nil
precisely when none of the individual closes failed. -/
theorem close_attempts_all_and_aggregates (c : ChConn) (env : Env) :
    ExtCall.channelClose ∈ (c.Close env).calls ∧
    ExtCall.readerClose ∈ (c.Close env).calls ∧
    ExtCall.writerClose ∈ (c.Close env).calls ∧
    (c.Close env).err = NewAggregate ((c.closeBehaviors env).filterMap id) ∧
    ((c.Close env).err = none ↔ ∀ e ∈ c.closeBehaviors env, e = none) := by
  refine ⟨?_, ?_, ?_, ChConn.close_err_eq c env, ChConn.close_err_none_iff c env⟩ <;>
    cases hx : c.exclusive <;> simp [ChConn.Close, hx]

/-- **C4**: in every reachable state of the data path, the bytes delivered
through `Read`, followed by the bytes still buffered in the pipe and in the
channel, are exactly the bytes the peer wrote: `Read` loses, duplicates and
reorders nothing, across arbitrarily many reads of arbitrary sizes, and once
both buffers drain the delivered bytes equal the written bytes. -/
theorem read_delivers_peer_bytes_in_order (s : StreamState)
    (h : StreamReachable s) :
    s.delivered ++ s.pipeBuf ++ s.chanBuf = s.written ∧
    (∃ rest, s.delivered ++ rest = s.written) ∧
    (s.chanBuf = [] → s.pipeBuf = [] → s.delivered = s.written) := by
  have hinv : s.delivered ++ s.pipeBuf ++ s.chanBuf = s.written :=
    streamReachable_inv h
  refine ⟨hinv, ⟨s.pipeBuf ++ s.chanBuf, by rw [← List.append_assoc]; exact hinv⟩, ?_⟩
  intro h1 h2
  rw [h1, h2] at hinv
  simpa using hinv

/-- Witness for **C4**: the peer writes `"ping"`, the copy goroutine moves
all four bytes, one `Read` with a buffer of size 10 drains the pipe; the
caller received exactly `"ping"`. -/
theorem read_delivers_peer_bytes_in_order_witness :
    StreamReachable pingFinal ∧
    pingFinal.delivered ++ pingFinal.pipeBuf ++ pingFinal.chanBuf =
      pingFinal.written ∧
    pingFinal.delivered = pingBytes := by
  have h0 : StreamStep streamInit ⟨pingBytes, pingBytes, [], []⟩ :=
    StreamStep.peerWrite streamInit pingBytes
  have h1 : StreamStep ⟨pingBytes, pingBytes, [], []⟩
      ⟨pingBytes, [], pingBytes, []⟩ :=
    StreamStep.copy ⟨pingBytes, pingBytes, [], []⟩ 4
  have h2 : StreamStep ⟨pingBytes, [], pingBytes, []⟩ pingFinal :=
    StreamStep.read ⟨pingBytes, [], pingBytes, []⟩ 10
  have hreach : StreamReachable pingFinal :=
    Relation.ReflTransGen.tail
      (Relation.ReflTransGen.tail (Relation.ReflTransGen.single h0) h1) h2
  exact ⟨hreach, (read_delivers_peer_bytes_in_order pingFinal hreach).1, rfl⟩

/-- **C5**: for every `ChConn` and every time value, `SetWriteDeadline`
returns nil, performs no external call, leaves the state unchanged, and a
subsequent `Write` behaves exactly as without it. -/
theorem setWriteDeadline_noop (c : ChConn) (t : Time) :
    c.SetWriteDeadline t = (none, c, ([] : List ExtCall)) ∧
    ∀ env data, ((c.SetWriteDeadline t).2.1).Write env data = c.Write env data :=
  ⟨rfl, fun _ _ => rfl⟩

/-- **C6**: `SetDeadline` and `SetReadDeadline` return exactly the result of
the corresponding call on the pipe's read end and install exactly the state
that call installs; no other operation (`Write`, `Read`, `Close`,
`SetWriteDeadline`) changes the read end's deadline fields. -/
theorem deadlines_delegate_to_reader (c : ChConn) (t : Time) :
    (c.SetDeadline t).1 = (c.reader.SetDeadline t).1 ∧
    (c.SetDeadline t).2.1 = { c with reader := (c.reader.SetDeadline t).2 } ∧
    (c.SetReadDeadline t).1 = (c.reader.SetReadDeadline t).1 ∧
    (c.SetReadDeadline t).2.1 =
      { c with reader := (c.reader.SetReadDeadline t).2 } ∧
    (∀ env data, ((c.Write env data).2.1).reader.readDeadline =
        c.reader.readDeadline ∧
      ((c.Write env data).2.1).reader.writeDeadline = c.reader.writeDeadline) ∧
    (∀ env n, ((c.Read env n).2.1).reader.readDeadline = c.reader.readDeadline ∧
      ((c.Read env n).2.1).reader.writeDeadline = c.reader.writeDeadline) ∧
    (∀ env, ((c.Close env).conn).reader.readDeadline = c.reader.readDeadline ∧
      ((c.Close env).conn).reader.writeDeadline = c.reader.writeDeadline) ∧
    ((c.SetWriteDeadline t).2.1).reader.readDeadline = c.reader.readDeadline ∧
    ((c.SetWriteDeadline t).2.1).reader.writeDeadline = c.reader.writeDeadline := by
  refine ⟨rfl, rfl, rfl, rfl, fun _ _ => ⟨rfl, rfl⟩, fun _ _ => ⟨rfl, rfl⟩,
    ?_, rfl, rfl⟩
  intro env
  cases hx : c.exclusive <;> simp [ChConn.Close, hx]

/-- **C7**: `Write` goes directly to the channel: its `(n, err)` result is
exactly the channel's `Write` result, its only external call is the channel
write (no pipe end is involved), the `ChConn` state is unchanged, and the
result is unaffected by any read deadline previously installed. -/
theorem write_goes_directly_to_channel (c : ChConn) (env : Env)
    (data : List Nat) :
    (c.Write env data).1 = env.channelWrite data ∧
    (c.Write env data).2.2 = [ExtCall.channelWrite data] ∧
    (c.Write env data).2.1 = c ∧
    ∀ t, (((c.SetDeadline t).2.1).Write env data).1 = env.channelWrite data ∧
      (((c.SetReadDeadline t).2.1).Write env data).1 = env.channelWrite data :=
  ⟨rfl, rfl, rfl, fun _ => ⟨rfl, rfl⟩⟩

/-- **C8**: the protocol-level request-name constant has exactly the value
`"x-teleport-connection-type"`, and no `ChConn` operation ever uses the
channel's out-of-band request mechanism — no call trace contains a
`sendRequest`, for this or any other request name. -/
theorem connectionTypeRequest_value_and_unused :
    ConnectionTypeRequest = "x-teleport-connection-type" ∧
    (∀ c env data nm, ExtCall.sendRequest nm ∉ (ChConn.Write c env data).2.2) ∧
    (∀ c env n nm, ExtCall.sendRequest nm ∉ (ChConn.Read c env n).2.2) ∧
    (∀ c env nm, ExtCall.sendRequest nm ∉ (ChConn.Close c env).calls) ∧
    (∀ c t nm, ExtCall.sendRequest nm ∉ (ChConn.SetDeadline c t).2.2) ∧
    (∀ c t nm, ExtCall.sendRequest nm ∉ (ChConn.SetReadDeadline c t).2.2) ∧
    (∀ c t nm, ExtCall.sendRequest nm ∉ (ChConn.SetWriteDeadline c t).2.2) ∧
    (∀ c env nm, ExtCall.sendRequest nm ∉ (ChConn.LocalAddr c env).2) ∧
    (∀ c env nm, ExtCall.sendRequest nm ∉ (ChConn.RemoteAddr c env).2) := by
  refine ⟨rfl, fun _ _ _ _ => ?_, fun _ _ _ _ => ?_, fun c env nm => ?_,
    fun _ _ _ => ?_, fun _ _ _ => ?_, fun _ _ _ => ?_, fun _ _ _ => ?_,
    fun _ _ _ => ?_⟩ <;>
    first
    | simp [ChConn.Write, ChConn.Read, ChConn.SetDeadline, ChConn.SetReadDeadline,
        ChConn.SetWriteDeadline, ChConn.LocalAddr, ChConn.RemoteAddr]
    | (cases hx : c.exclusive <;> simp [ChConn.Close, hx])

/-- **C9**: the shared constructor yields `exclusive = false`, the exclusive
constructor yields `exclusive = true`, both through the single internal
builder `newChConn`, and no operation ever modifies the flag. -/
theorem exclusive_flag_fixed :
    NewChConn = newChConn false ∧
    NewExclusiveChConn = newChConn true ∧
    NewChConn.exclusive = false ∧
    NewExclusiveChConn.exclusive = true ∧
    (∀ c env, (ChConn.Close c env).conn.exclusive = c.exclusive) ∧
    (∀ c env n, (ChConn.Read c env n).2.1.exclusive = c.exclusive) ∧
    (∀ c env data, (ChConn.Write c env data).2.1.exclusive = c.exclusive) ∧
    (∀ c t, (ChConn.SetDeadline c t).2.1.exclusive = c.exclusive) ∧
    (∀ c t, (ChConn.SetReadDeadline c t).2.1.exclusive = c.exclusive) ∧
    (∀ c t, (ChConn.SetWriteDeadline c t).2.1.exclusive = c.exclusive) := by
  refine ⟨rfl, rfl, rfl, rfl, fun c env => ?_, fun _ _ _ => rfl, fun _ _ _ => rfl,
    fun _ _ => rfl, fun _ _ => rfl, fun _ _ => rfl⟩
  cases hx : c.exclusive <;> simp [ChConn.Close, hx]

/-- Counterexample to **C10**: with collaborators that tolerate double close
silently — as `net.Pipe` does, its `Close` being unconditionally nil — the
second sequential `Close` after a first successful one returns nil, not a
non-nil aggregate. -/
theorem double_close_may_return_nil :
    ((NewChConn.Close envAllNil).err = none) ∧
    (((NewChConn.Close envAllNil).conn.Close envAllNil).err = none) :=
  ⟨rfl, rfl⟩

/-- **C10** as amended: a second sequential `Close` is safe and re-attempts
exactly the same closes as the first; it returns the aggregate of whatever
errors those redundant close attempts report — nil precisely when every
redundant close reports nil, hence non-nil whenever at least one
already-closed resource reports an already-closed error. -/
theorem double_close_aggregates_redundant_errors (c : ChConn) (env : Env) :
    ((c.Close env).conn.Close env).calls = (c.Close env).calls ∧
    (((c.Close env).conn.Close env).err = none ↔
      ∀ e ∈ (c.Close env).conn.closeBehaviors env, e = none) := by
  constructor
  · cases hx : c.exclusive <;> simp [ChConn.Close, hx]
  · exact ChConn.close_err_none_iff _ env
